import Mathlib

/-! # A shallow embedding of the recursive ray tracer (main.cpp) and of the
first renderer (ray.cpp)

The C++ `double` is idealised as an element of a linearly ordered field `K`
(the theorems that need a real square root take `K = ℝ` and `Real.sqrt`).
The square root of `<cmath>` is a parameter `sqrt : K → K` of every function
that reaches it, so the definitions stay executable (for instance over `ℚ`).

Division follows the field: `x / 0 = 0`.  In `Sphere::intersect` the divisor
`q` vanishes only together with `c` (unit direction), where C++ computes
`r2 = 0/0 = NaN`; every comparison with NaN is false and the code selects
`r1 = 0`, which is also what the embedding selects with `r2 = 0`.

A `Material *` is an `Option (Material K)`: `none` is the null pointer.

The functions of ray.cpp are in the namespace `RayCpp`; they share the records
`vec3` and `Ray` with main.cpp and have their own `operator-` (`RayCpp.sub`).
-/

namespace RayTracer

variable {K : Type} [LinearOrderedField K]

/-! ## vec3 (vec3.h) -/

/-- The class `vec3` of vec3.h: three doubles. -/
structure vec3 (K : Type) where
  x : K
  y : K
  z : K

namespace vec3

/-- Modelled from the spec: vec3.cpp is not among the sources; `vec3(double v)`
sets the three components to `v` (`vec3(0.0)` is black, `vec3(1.0)` white). -/
def splat (v : K) : vec3 K := ⟨v, v, v⟩

/-- Modelled from the spec: vec3.cpp is not among the sources; the default
constructor `vec3()` is the zero vector (a colour accumulator starts black). -/
def zero : vec3 K := ⟨0, 0, 0⟩

/-- Modelled from the spec: vec3.cpp is not among the sources;
`operator+` adds componentwise (as the `vec3` of ray.cpp does). -/
def add (v w : vec3 K) : vec3 K := ⟨v.x + w.x, v.y + w.y, v.z + w.z⟩

/-- Modelled from the spec: vec3.cpp is not among the sources;
binary `operator-` is `this - other`, componentwise. -/
def sub (v w : vec3 K) : vec3 K := ⟨v.x - w.x, v.y - w.y, v.z - w.z⟩

/-- Modelled from the spec: vec3.cpp is not among the sources;
unary `operator-` negates each component (as the `vec3` of ray.cpp does). -/
def neg (v : vec3 K) : vec3 K := ⟨-v.x, -v.y, -v.z⟩

/-- Modelled from the spec: vec3.cpp is not among the sources;
`operator*(double)` scales each component (as the `vec3` of ray.cpp does). -/
def scale (v : vec3 K) (s : K) : vec3 K := ⟨v.x * s, v.y * s, v.z * s⟩

instance : Add (vec3 K) := ⟨add⟩
instance : Sub (vec3 K) := ⟨sub⟩
instance : Neg (vec3 K) := ⟨neg⟩
instance : HMul (vec3 K) K (vec3 K) := ⟨scale⟩
/-- The friend of vec3.h: `operator*(const double s, const vec3 &v) { return v * s; }`. -/
instance : HMul K (vec3 K) (vec3 K) := ⟨fun s v => v * s⟩

/-- Modelled from the spec: vec3.cpp is not among the sources; the friend
`dot(v, w)` is the Euclidean inner product (as `vec3::dot` of ray.cpp). -/
def dot (v w : vec3 K) : K := v.x * w.x + v.y * w.y + v.z * w.z

/-- The method `vec3::length` (ray.cpp, lines 35-38): `sqrt(x*x + y*y + z*z)`. -/
def length (sqrt : K → K) (v : vec3 K) : K :=
  sqrt (v.x * v.x + v.y * v.y + v.z * v.z)

/-- The method `vec3::normalize` (ray.cpp, lines 40-45): each component is
divided by the length.  The C++ method updates in place; here the new value
is returned. -/
def normalize (sqrt : K → K) (v : vec3 K) : vec3 K :=
  let length := v.length sqrt
  ⟨v.x / length, v.y / length, v.z / length⟩

end vec3

open vec3 (dot)

/-! ## Records of main.cpp -/

/-- Modelled from the spec: Material.h is not among the sources; a material is
a base colour (`getColor()`) with the coefficients `kd`, `ks`, `kr`. -/
structure Material (K : Type) where
  color : vec3 K
  kd : K
  ks : K
  kr : K

/-- What `m->field` reads through a `Material *`.  Reading through the null
pointer is undefined in C++; the embedding reads the all-zero material. -/
def Material.deref (m : Option (Material K)) : Material K :=
  m.getD ⟨vec3.zero, 0, 0, 0⟩

/-- The class `Ray`: an origin and a direction. -/
structure Ray (K : Type) where
  origin : vec3 K
  dir : vec3 K

/-- Modelled from the spec: Ray.h is not among the sources; the constructor
`Ray(o, d)` normalises the direction ("normalized at construction"), as the
`Ray` class of ray.cpp does. -/
def Ray.new (sqrt : K → K) (o d : vec3 K) : Ray K := ⟨o, d.normalize sqrt⟩

/-- The class `Intersection` (main.cpp, lines 18-28). -/
structure Intersection (K : Type) where
  normal : vec3 K
  pos : vec3 K
  distance : K
  material : Option (Material K)

/-- The default constructor `Intersection()`: distance -1, zero vectors,
null material. -/
def Intersection.default : Intersection K := ⟨vec3.zero, vec3.zero, -1, none⟩

/-- The abstract class `Shape`: its one virtual method. -/
structure Shape (K : Type) where
  intersect : Ray K → Intersection K

/-- The class `Sphere` (main.cpp, lines 36-43). -/
structure Sphere (K : Type) where
  center : vec3 K
  radius : K
  material : Option (Material K)

/-- The class `Light` (main.cpp, lines 82-86). -/
structure Light (K : Type) where
  color : vec3 K
  pos : vec3 K

/-! ## Sphere::intersect (main.cpp, lines 46-79) -/

/-- The method `Sphere::intersect` of main.cpp. -/
def Sphere.intersect (sqrt : K → K) (s : Sphere K) (ray : Ray K) : Intersection K :=
  let diff := ray.origin - s.center
  let a := dot ray.dir ray.dir
  let b := 2 * dot diff ray.dir
  let c := dot diff diff - (s.radius * s.radius)
  let d := b * b - 4 * a * c
  if d < 0 then Intersection.default
  else
    let d := sqrt d
    let q := 0.5 * (if b < 0 then (-b - d) else (-b + d))
    let r1 := q / a
    let r2 := c / q
    if r1 < 0 ∧ r2 < 0 then Intersection.default
    else
      let distance :=
        if r2 < 0 then r1
        else if r1 < 0 ∨ r2 < r1 then r2
        else r1
      let intersection := ray.origin + ray.dir * distance
      let normal := (intersection - s.center).normalize sqrt
      ⟨normal, intersection, distance, s.material⟩

/-- A sphere seen through the `Shape` interface (virtual dispatch). -/
def Sphere.toShape (sqrt : K → K) (s : Sphere K) : Shape K := ⟨s.intersect sqrt⟩

/-! ## findIntersect (main.cpp, lines 121-130) -/

/-- One iteration of the loop of `findIntersect`. -/
def findIntersectStep (ray : Ray K) (closest : Intersection K) (shape : Shape K) :
    Intersection K :=
  let i := shape.intersect ray
  if i.distance > 0 ∧ (closest.distance < 0 ∨ closest.distance > i.distance) then i
  else closest

/-- The function `findIntersect`: the record `*closest` is threaded through the
loop over the shapes and returned. -/
def findIntersect (ray : Ray K) (shapes : List (Shape K)) (closest : Intersection K) :
    Intersection K :=
  shapes.foldl (findIntersectStep ray) closest

/-! ## reflectAbout (main.cpp, lines 132-134) -/

/-- The function `reflectAbout`. -/
def reflectAbout (incoming axis : vec3 K) : vec3 K :=
  (2 * dot axis incoming) * axis - incoming

/-! ## localLighting (main.cpp, lines 139-181) -/

/-- One iteration of the loop over the lights.  The state is the pair of the
locals `color` and `shadowIntersection`, both declared before the loop. -/
def localLightingStep (sqrt : K → K) (intersect : Intersection K) (camDir : vec3 K)
    (shapes : List (Shape K)) (st : vec3 K × Intersection K) (light : Light K) :
    vec3 K × Intersection K :=
  let color := st.1
  let shadowIntersection := st.2
  let lightDir := (light.pos - intersect.pos).normalize sqrt
  if dot intersect.normal lightDir < 0 then (color, shadowIntersection)
  else
    let shadowRay := Ray.new sqrt (intersect.pos + lightDir * (0.0001 : K)) lightDir
    let shadowIntersection := findIntersect shadowRay shapes shadowIntersection
    if shadowIntersection.distance > 0 then (color, shadowIntersection)
    else
      let reflected := (reflectAbout lightDir intersect.normal).normalize sqrt
      let material := Material.deref intersect.material
      let color := color + material.color * material.kd * dot lightDir intersect.normal
      let color := color + light.color * material.ks * (dot camDir reflected) ^ 64
      (color, shadowIntersection)

/-- The colour accumulated by the loop of `localLighting`, before the floor. -/
def localLightingAccum (sqrt : K → K) (intersect : Intersection K) (camPos : vec3 K)
    (shapes : List (Shape K)) (lights : List (Light K)) : vec3 K :=
  let camDir := (camPos - intersect.pos).normalize sqrt
  (lights.foldl (localLightingStep sqrt intersect camDir shapes)
    (vec3.zero, Intersection.default)).1

/-- The function `localLighting`: the accumulated colour floored at 0.1. -/
def localLighting (sqrt : K → K) (intersect : Intersection K) (camPos : vec3 K)
    (shapes : List (Shape K)) (lights : List (Light K)) : vec3 K :=
  let color := localLightingAccum sqrt intersect camPos shapes lights
  ⟨if color.x > 0.1 then color.x else 0.1,
   if color.y > 0.1 then color.y else 0.1,
   if color.z > 0.1 then color.z else 0.1⟩

/-! ## trace (main.cpp, lines 183-209) -/

/-- The constant `MAX_RAY_DEPTH`. -/
def MAX_RAY_DEPTH : Int := 8

/-- The function `trace`.  The recursion is on `depth`, which grows towards
`MAX_RAY_DEPTH`. -/
def trace (sqrt : K → K) (cameraPos : vec3 K) (shapes : List (Shape K))
    (lights : List (Light K)) (ray : Ray K) (depth : Int) : vec3 K :=
  if depth ≥ MAX_RAY_DEPTH then vec3.splat 0
  else
    let intersection := findIntersect ray shapes Intersection.default
    if intersection.distance < 0 then vec3.splat 0
    else
      let reflDir := (reflectAbout (-ray.dir) intersection.normal).normalize sqrt
      let reflRay := Ray.new sqrt (intersection.pos + reflDir * (0.001 : K)) reflDir
      let reflColor := trace sqrt cameraPos shapes lights reflRay (depth + 1)
      let localColor := localLighting sqrt intersection cameraPos shapes lights
      localColor + reflColor * (Material.deref intersection.material).kr
termination_by (MAX_RAY_DEPTH - depth).toNat
decreasing_by
  simp only [MAX_RAY_DEPTH] at *
  omega

/-! ## Auxiliary definitions for the proofs -/

/-- The scalar part of `Sphere::intersect` (main.cpp, lines 52-72), as a
function of the coefficients `a`, `b`, `c`: `none` where the method returns
`Intersection()`, the selected distance otherwise.  `Sphere.intersect_eq`
proves that the method is this selection followed by lines 74-78. -/
def Sphere.rootSelect (sqrt : K → K) (a b c : K) : Option K :=
  let d := b * b - 4 * a * c
  if d < 0 then none
  else
    let d := sqrt d
    let q := 0.5 * (if b < 0 then (-b - d) else (-b + d))
    let r1 := q / a
    let r2 := c / q
    if r1 < 0 ∧ r2 < 0 then none
    else
      some (if r2 < 0 then r1
        else if r1 < 0 ∨ r2 < r1 then r2
        else r1)

/-! ## A concrete scene: two spheres and two lights -/

/-- A diffuse white material: `kd = 1`, `ks = 0`, `kr = 0`. -/
def exMaterial : Material K := ⟨⟨1, 1, 1⟩, 1, 0, 0⟩

/-- The unit sphere at the origin. -/
def exSphere : Sphere K := ⟨⟨0, 0, 0⟩, 1, some exMaterial⟩

/-- A sphere of radius 1 at (0,0,5), above the unit sphere. -/
def exOccluder : Sphere K := ⟨⟨0, 0, 5⟩, 1, some exMaterial⟩

/-- The two spheres as the shape list of the scene. -/
def exShapes (sqrt : K → K) : List (Shape K) :=
  [exSphere.toShape sqrt, exOccluder.toShape sqrt]

/-- The primary ray from (0,0,3) along (0,0,-1). -/
def exRay : Ray K := ⟨⟨0, 0, 3⟩, ⟨0, 0, -1⟩⟩

/-- The record of the hit of `exRay` on the unit sphere: distance 2, at (0,0,1). -/
def exHit : Intersection K := ⟨⟨0, 0, 1⟩, ⟨0, 0, 1⟩, 2, some exMaterial⟩

/-- A white light at (0,0,10): seen from (0,0,1) it is behind `exOccluder`. -/
def exLightHidden : Light K := ⟨⟨1, 1, 1⟩, ⟨0, 0, 10⟩⟩

/-- A white light at (3,0,5): nothing lies between it and (0,0,1). -/
def exLightFree : Light K := ⟨⟨1, 1, 1⟩, ⟨3, 0, 5⟩⟩

/-! ## Further pieces of main.cpp singled out for the claims -/

/-- Modelled from the spec: vec3.cpp is not among the sources;
`operator/(double)` divides each component. -/
def vec3.div (v : vec3 K) (s : K) : vec3 K := ⟨v.x / s, v.y / s, v.z / s⟩

instance : HDiv (vec3 K) K (vec3 K) := ⟨vec3.div⟩

/-- The local `q` of `Sphere::intersect` (main.cpp, lines 47-59), computed on
the path where the test `d < 0` fails. -/
def Sphere.intersectQ (sqrt : K → K) (s : Sphere K) (ray : Ray K) : K :=
  let diff := ray.origin - s.center
  let a := dot ray.dir ray.dir
  let b := 2 * dot diff ray.dir
  let c := dot diff diff - (s.radius * s.radius)
  let d := b * b - 4 * a * c
  let d := sqrt d
  0.5 * (if b < 0 then (-b - d) else (-b + d))

/-- The specular term that `localLighting` adds for a light (main.cpp, lines
171-173): `lights[i]->color * material->ks * pow(dot(camDir, reflected), 64.0)`. -/
def specularTerm (light : Light K) (material : Material K) (camDir reflected : vec3 K) :
    vec3 K :=
  light.color * material.ks * (dot camDir reflected) ^ 64

/-- The variant of `trace` that the spec allows (section 4.5: "a reimplementation
may short-circuit when kr == 0"): when the hit material has `kr = 0` it returns
`localLighting(hit)` without tracing the reflection ray; otherwise it is `trace`. -/
def traceShortCircuit (sqrt : K → K) (cameraPos : vec3 K) (shapes : List (Shape K))
    (lights : List (Light K)) (ray : Ray K) (depth : Int) : vec3 K :=
  if depth ≥ MAX_RAY_DEPTH then vec3.splat 0
  else
    let intersection := findIntersect ray shapes Intersection.default
    if intersection.distance < 0 then vec3.splat 0
    else
      let localColor := localLighting sqrt intersection cameraPos shapes lights
      if (Material.deref intersection.material).kr = 0 then localColor
      else
        let reflDir := (reflectAbout (-ray.dir) intersection.normal).normalize sqrt
        let reflRay := Ray.new sqrt (intersection.pos + reflDir * (0.001 : K)) reflDir
        let reflColor := traceShortCircuit sqrt cameraPos shapes lights reflRay (depth + 1)
        localColor + reflColor * (Material.deref intersection.material).kr
termination_by (MAX_RAY_DEPTH - depth).toNat
decreasing_by
  simp only [MAX_RAY_DEPTH] at *
  omega

/-- The function `trace` run with a bound on the number of nested calls: each
call, the outermost included, uses one unit of `fuel`, and `none` means that
the fuel ran out before the call returned. -/
def traceFuel (sqrt : K → K) (cameraPos : vec3 K) (shapes : List (Shape K))
    (lights : List (Light K)) : Nat → Ray K → Int → Option (vec3 K)
  | 0, _, _ => none
  | fuel + 1, ray, depth =>
    if depth ≥ MAX_RAY_DEPTH then some (vec3.splat 0)
    else
      let intersection := findIntersect ray shapes Intersection.default
      if intersection.distance < 0 then some (vec3.splat 0)
      else
        let reflDir := (reflectAbout (-ray.dir) intersection.normal).normalize sqrt
        let reflRay := Ray.new sqrt (intersection.pos + reflDir * (0.001 : K)) reflDir
        match traceFuel sqrt cameraPos shapes lights fuel reflRay (depth + 1) with
        | none => none
        | some reflColor =>
          let localColor := localLighting sqrt intersection cameraPos shapes lights
          some (localColor + reflColor * (Material.deref intersection.material).kr)

/-! ## The first renderer (ray.cpp) -/

namespace RayCpp

/-- The binary `vec3::operator-` of ray.cpp (lines 19-21), which returns
`other - this`: `vec3(other.x - this->x, other.y - this->y, other.z - this->z)`. -/
def sub (this other : vec3 K) : vec3 K :=
  ⟨other.x - this.x, other.y - this.y, other.z - this.z⟩

/-- The class `Sphere` of ray.cpp (lines 126-130): a centre and a radius. -/
structure Sphere (K : Type) where
  center : vec3 K
  radius : K

/-- The abstract class `Shape` of ray.cpp: `intersect(ray, t)` returns its
boolean together with the value left in `*t`, given the value `*t` had. -/
structure Shape (K : Type) where
  intersect : Ray K → K → Bool × K
  normal : vec3 K → vec3 K

/-- The method `Sphere::intersect` of ray.cpp (lines 133-162).  The argument
`t` is the value of `*t` on entry; it is left as it was when both roots are
negative. -/
def Sphere.intersect (sqrt : K → K) (s : Sphere K) (ray : Ray K) (t : K) : Bool × K :=
  let diff := sub ray.origin s.center
  let c := diff.length sqrt
  let b := dot ray.dir diff
  let d := b * b - c * c + s.radius * s.radius
  if d < 0 then (false, -1)
  else
    let t1 := b + sqrt d
    let t2 := b - sqrt d
    if t1 < 0 ∧ t2 < 0 then (false, t)
    else if t1 > 0 ∧ t2 > 0 then (true, min t1 t2)
    else if t1 > 0 then (true, t1)
    else (true, t2)

/-- The method `Sphere::normal` of ray.cpp (lines 164-168). -/
def Sphere.normal (sqrt : K → K) (s : Sphere K) (surfacePoint : vec3 K) : vec3 K :=
  (sub s.center surfacePoint).normalize sqrt

/-- A sphere of ray.cpp seen through the `Shape` interface. -/
def Sphere.toShape (sqrt : K → K) (s : Sphere K) : Shape K :=
  ⟨s.intersect sqrt, s.normal sqrt⟩

/-- The state of the loop of `findIntersect` in ray.cpp: `*t_min`, the local `t`
and `closest_shape` (`none` while the pointer is uninitialised). -/
structure FindState (K : Type) where
  t_min : K
  t : K
  closest_shape : Option (Shape K)

/-- One iteration of the loop of `findIntersect` in ray.cpp (lines 179-184). -/
def findIntersectStep (ray : Ray K) (st : FindState K) (shape : Shape K) : FindState K :=
  let r := shape.intersect ray st.t
  if r.1 then
    if r.2 > 0 ∧ (st.t_min < 0 ∨ st.t_min > r.2) then ⟨r.2, r.2, some shape⟩
    else ⟨st.t_min, r.2, st.closest_shape⟩
  else ⟨st.t_min, r.2, st.closest_shape⟩

/-- The function `findIntersect` of ray.cpp (lines 174-188): it starts from
`*t_min = -1`, `t = 0`, and returns the final state, whose `t_min` is what the
caller reads and whose `closest_shape` is the returned pointer. -/
def findIntersect (ray : Ray K) (shapes : List (Shape K)) : FindState K :=
  shapes.foldl (findIntersectStep ray) ⟨-1, 0, none⟩

end RayCpp

/-! ## Lemmas on findIntersect -/

theorem findIntersect_nil (ray : Ray K) (c : Intersection K) :
    findIntersect ray [] c = c := rfl

theorem findIntersect_cons (ray : Ray K) (sh : Shape K) (rest : List (Shape K))
    (c : Intersection K) :
    findIntersect ray (sh :: rest) c = findIntersect ray rest (findIntersectStep ray c sh) := rfl

/-- When no shape reports a positive distance the record is left untouched. -/
theorem findIntersect_of_no_hit (ray : Ray K) (shapes : List (Shape K)) (c : Intersection K)
    (h : ∀ sh ∈ shapes, ¬ 0 < (sh.intersect ray).distance) :
    findIntersect ray shapes c = c := by
  induction shapes generalizing c with
  | nil => rfl
  | cons sh rest ih =>
    have hsh : ¬ 0 < (sh.intersect ray).distance := h sh (List.mem_cons_self _ _)
    have hstep : findIntersectStep ray c sh = c := by
      unfold findIntersectStep
      simp only
      rw [if_neg]
      intro hc
      exact hsh hc.1
    rw [findIntersect_cons, hstep]
    exact ih c (fun s hs => h s (List.mem_cons_of_mem _ hs))

/-- The loop invariant of `findIntersect`, for a record whose distance is not 0. -/
theorem findIntersect_invariant (ray : Ray K) (shapes : List (Shape K)) (c : Intersection K)
    (hc : c.distance < 0 ∨ 0 < c.distance) :
    (findIntersect ray shapes c = c ∨
      ∃ sh ∈ shapes, findIntersect ray shapes c = sh.intersect ray ∧
        0 < (sh.intersect ray).distance) ∧
    (0 < c.distance → 0 < (findIntersect ray shapes c).distance ∧
      (findIntersect ray shapes c).distance ≤ c.distance) ∧
    (∀ sh ∈ shapes, 0 < (sh.intersect ray).distance →
      0 < (findIntersect ray shapes c).distance ∧
      (findIntersect ray shapes c).distance ≤ (sh.intersect ray).distance) := by
  induction shapes generalizing c with
  | nil =>
    refine ⟨Or.inl rfl, fun h => ⟨h, le_refl _⟩, ?_⟩
    intro sh hsh
    simp at hsh
  | cons sh rest ih =>
    rw [findIntersect_cons]
    by_cases hstep : (sh.intersect ray).distance > 0 ∧
        (c.distance < 0 ∨ c.distance > (sh.intersect ray).distance)
    · have hc2 : findIntersectStep ray c sh = sh.intersect ray := by
        unfold findIntersectStep
        simp only
        rw [if_pos hstep]
      rw [hc2]
      obtain ⟨h1, h2, h3⟩ := ih (sh.intersect ray) (Or.inr hstep.1)
      have h2b := h2 hstep.1
      refine ⟨Or.inr ?_, ?_, ?_⟩
      · rcases h1 with h1 | ⟨s, hs, hs2, hs3⟩
        · exact ⟨sh, List.mem_cons_self _ _, h1, hstep.1⟩
        · exact ⟨s, List.mem_cons_of_mem _ hs, hs2, hs3⟩
      · intro hpos
        rcases hstep.2 with hneg | hgt
        · exact absurd hpos (not_lt.mpr hneg.le)
        · exact ⟨h2b.1, le_trans h2b.2 hgt.le⟩
      · intro s hs hspos
        rcases List.mem_cons.mp hs with rfl | hs
        · exact h2b
        · exact h3 s hs hspos
    · have hc2 : findIntersectStep ray c sh = c := by
        unfold findIntersectStep
        simp only
        rw [if_neg hstep]
      rw [hc2]
      obtain ⟨h1, h2, h3⟩ := ih c hc
      refine ⟨?_, h2, ?_⟩
      · rcases h1 with h1 | ⟨s, hs, hs2, hs3⟩
        · exact Or.inl h1
        · exact Or.inr ⟨s, List.mem_cons_of_mem _ hs, hs2, hs3⟩
      · intro s hs hspos
        rcases List.mem_cons.mp hs with rfl | hs
        · have hnot : ¬ (c.distance < 0 ∨ c.distance > (s.intersect ray).distance) :=
            fun hcon => hstep ⟨hspos, hcon⟩
          rw [not_or, not_lt, not_lt] at hnot
          have hcpos : 0 < c.distance := by
            rcases hc with hc | hc
            · exact absurd hc (not_lt.mpr hnot.1)
            · exact hc
          have := h2 hcpos
          exact ⟨this.1, le_trans this.2 hnot.2⟩
        · exact h3 s hs hspos

theorem Intersection.default_distance : (Intersection.default : Intersection K).distance = -1 :=
  rfl

/-! ## Claims on findIntersect -/

/-- C2: starting from a fresh record (distance -1), `findIntersect` leaves the
fresh record when no shape reports a distance > 0; otherwise it leaves the
record of one of the shapes, whose distance is > 0 and is the least of the
distances > 0 that the shapes report. -/
theorem findIntersect_fresh_nearest (ray : Ray K) (shapes : List (Shape K)) :
    ((∀ sh ∈ shapes, ¬ 0 < (sh.intersect ray).distance) →
      findIntersect ray shapes Intersection.default = Intersection.default ∧
      (findIntersect ray shapes Intersection.default).distance = -1) ∧
    ((∃ sh ∈ shapes, 0 < (sh.intersect ray).distance) →
      (∃ sh ∈ shapes, findIntersect ray shapes Intersection.default = sh.intersect ray ∧
        0 < (sh.intersect ray).distance) ∧
      (∀ sh ∈ shapes, 0 < (sh.intersect ray).distance →
        (findIntersect ray shapes Intersection.default).distance ≤
          (sh.intersect ray).distance)) := by
  have hfresh : (Intersection.default : Intersection K).distance < 0 := by
    rw [Intersection.default_distance]
    exact neg_one_lt_zero
  constructor
  · intro h
    have := findIntersect_of_no_hit ray shapes Intersection.default h
    rw [this]
    exact ⟨rfl, rfl⟩
  · rintro ⟨s0, hs0, hpos0⟩
    obtain ⟨h1, -, h3⟩ := findIntersect_invariant ray shapes Intersection.default (Or.inl hfresh)
    refine ⟨?_, fun s hs hpos => (h3 s hs hpos).2⟩
    rcases h1 with h1 | h1
    · have := (h3 s0 hs0 hpos0).1
      rw [h1] at this
      exact absurd this (not_lt.mpr hfresh.le)
    · exact h1

/-! ## Lemmas on localLighting and trace -/

theorem localLightingStep_backface (sqrt : K → K) (intersect : Intersection K)
    (camDir : vec3 K) (shapes : List (Shape K)) (st : vec3 K × Intersection K)
    (light : Light K)
    (h : dot intersect.normal ((light.pos - intersect.pos).normalize sqrt) < 0) :
    localLightingStep sqrt intersect camDir shapes st light = st := by
  unfold localLightingStep
  simp only
  rw [if_pos h]

theorem localLighting_fold_backface (sqrt : K → K) (intersect : Intersection K)
    (camDir : vec3 K) (shapes : List (Shape K)) (lights : List (Light K))
    (st : vec3 K × Intersection K)
    (h : ∀ l ∈ lights, dot intersect.normal ((l.pos - intersect.pos).normalize sqrt) < 0) :
    lights.foldl (localLightingStep sqrt intersect camDir shapes) st = st := by
  induction lights generalizing st with
  | nil => rfl
  | cons l rest ih =>
    rw [List.foldl_cons,
      localLightingStep_backface sqrt intersect camDir shapes st l (h l (List.mem_cons_self _ _))]
    exact ih st (fun l2 hl2 => h l2 (List.mem_cons_of_mem _ hl2))

theorem trace_eq (sqrt : K → K) (cameraPos : vec3 K) (shapes : List (Shape K))
    (lights : List (Light K)) (ray : Ray K) (depth : Int) :
    trace sqrt cameraPos shapes lights ray depth =
      if depth ≥ MAX_RAY_DEPTH then vec3.splat 0
      else
        if (findIntersect ray shapes Intersection.default).distance < 0 then vec3.splat 0
        else
          localLighting sqrt (findIntersect ray shapes Intersection.default) cameraPos
              shapes lights +
            trace sqrt cameraPos shapes lights
                (Ray.new sqrt
                  ((findIntersect ray shapes Intersection.default).pos +
                    (reflectAbout (-ray.dir)
                      (findIntersect ray shapes Intersection.default).normal).normalize sqrt *
                      (0.001 : K))
                  ((reflectAbout (-ray.dir)
                    (findIntersect ray shapes Intersection.default).normal).normalize sqrt))
                (depth + 1) *
              (Material.deref (findIntersect ray shapes Intersection.default).material).kr := by
  rw [trace]

/-! ## Claims on trace and localLighting -/

/-- C4: called with depth >= 8 (MAX_RAY_DEPTH), `trace` returns the black colour
(0,0,0), whatever the ray, the camera position, the shapes and the lights. -/
theorem trace_depth_exhausted (sqrt : K → K) (cameraPos : vec3 K) (shapes : List (Shape K))
    (lights : List (Light K)) (ray : Ray K) (depth : Int) (h : depth ≥ 8) :
    trace sqrt cameraPos shapes lights ray depth = ⟨0, 0, 0⟩ := by
  rw [trace_eq, if_pos (by simpa [MAX_RAY_DEPTH] using h)]
  rfl

/-- Witness of C4: the scene of one unit sphere and one light, at depth 8. -/
theorem trace_depth_exhausted_witness :
    (8 : Int) ≥ 8 ∧
    trace Real.sqrt (⟨0, 0, 5⟩ : vec3 ℝ)
      [Sphere.toShape Real.sqrt ⟨⟨0, 0, 0⟩, 1, some ⟨⟨1, 0, 0⟩, 1, 1, 1⟩⟩]
      [⟨⟨1, 1, 1⟩, ⟨0, 0, 10⟩⟩] ⟨⟨0, 0, 5⟩, ⟨0, 0, -1⟩⟩ 8 = ⟨0, 0, 0⟩ :=
  ⟨le_refl _, trace_depth_exhausted Real.sqrt _ _ _ _ 8 (le_refl _)⟩

/-- C5: when no shape reports an intersection distance > 0 for the ray (in
particular when there is no shape at all), `trace` returns the black colour
(0,0,0) at every depth. -/
theorem trace_miss_black (sqrt : K → K) (cameraPos : vec3 K) (shapes : List (Shape K))
    (lights : List (Light K)) (ray : Ray K) (depth : Int)
    (h : ∀ sh ∈ shapes, ¬ 0 < (sh.intersect ray).distance) :
    trace sqrt cameraPos shapes lights ray depth = ⟨0, 0, 0⟩ := by
  rw [trace_eq]
  split_ifs with h1 h2
  · rfl
  · rfl
  · exfalso
    apply h2
    rw [findIntersect_of_no_hit ray shapes Intersection.default h, Intersection.default_distance]
    exact neg_one_lt_zero

/-- Witness of C5: the empty scene (no shapes, no lights). -/
theorem trace_miss_black_witness :
    (∀ sh ∈ ([] : List (Shape ℝ)),
      ¬ 0 < (sh.intersect ⟨⟨0, 0, 5⟩, ⟨0, 0, -1⟩⟩).distance) ∧
    trace Real.sqrt (⟨0, 0, 5⟩ : vec3 ℝ) [] [] ⟨⟨0, 0, 5⟩, ⟨0, 0, -1⟩⟩ 0 = ⟨0, 0, 0⟩ :=
  ⟨fun _ h => absurd h (List.not_mem_nil _),
   trace_miss_black Real.sqrt _ [] [] _ 0 (fun _ h => absurd h (List.not_mem_nil _))⟩

/-- C7: when every light is back-facing at the hit (dot(normal, lightDir) < 0,
lightDir the normalised vector from the hit position to the light), also
when there is no light, `localLighting` returns exactly (0.1, 0.1, 0.1). -/
theorem localLighting_all_backfacing (sqrt : K → K) (intersect : Intersection K)
    (camPos : vec3 K) (shapes : List (Shape K)) (lights : List (Light K))
    (h : ∀ l ∈ lights, dot intersect.normal ((l.pos - intersect.pos).normalize sqrt) < 0) :
    localLighting sqrt intersect camPos shapes lights = ⟨0.1, 0.1, 0.1⟩ := by
  have hacc : localLightingAccum sqrt intersect camPos shapes lights = vec3.zero := by
    unfold localLightingAccum
    simp only
    rw [localLighting_fold_backface sqrt intersect _ shapes lights _ h]
  unfold localLighting
  simp only [hacc, vec3.zero]
  have h0 : ¬ ((0 : K) > 0.1) := by norm_num
  rw [if_neg h0]

/-- C8: each component of the colour returned by `localLighting` is the maximum
of 0.1 and the corresponding accumulated component, hence is >= 0.1. -/
theorem localLighting_floor (sqrt : K → K) (intersect : Intersection K)
    (camPos : vec3 K) (shapes : List (Shape K)) (lights : List (Light K)) :
    (localLighting sqrt intersect camPos shapes lights).x =
        max 0.1 (localLightingAccum sqrt intersect camPos shapes lights).x ∧
    (localLighting sqrt intersect camPos shapes lights).y =
        max 0.1 (localLightingAccum sqrt intersect camPos shapes lights).y ∧
    (localLighting sqrt intersect camPos shapes lights).z =
        max 0.1 (localLightingAccum sqrt intersect camPos shapes lights).z ∧
    0.1 ≤ (localLighting sqrt intersect camPos shapes lights).x ∧
    0.1 ≤ (localLighting sqrt intersect camPos shapes lights).y ∧
    0.1 ≤ (localLighting sqrt intersect camPos shapes lights).z := by
  have key : ∀ c : K, (if c > 0.1 then c else 0.1) = max 0.1 c := by
    intro c
    split_ifs with hc
    · exact (max_eq_right hc.le).symm
    · exact (max_eq_left (not_lt.mp hc)).symm
  have hx : (localLighting sqrt intersect camPos shapes lights).x =
      max 0.1 (localLightingAccum sqrt intersect camPos shapes lights).x := key _
  have hy : (localLighting sqrt intersect camPos shapes lights).y =
      max 0.1 (localLightingAccum sqrt intersect camPos shapes lights).y := key _
  have hz : (localLighting sqrt intersect camPos shapes lights).z =
      max 0.1 (localLightingAccum sqrt intersect camPos shapes lights).z := key _
  refine ⟨hx, hy, hz, ?_, ?_, ?_⟩
  · rw [hx]; exact le_max_left _ _
  · rw [hy]; exact le_max_left _ _
  · rw [hz]; exact le_max_left _ _

/-! ## Lemmas on vec3 -/

namespace vec3

theorem add_def (v w : vec3 K) : v + w = ⟨v.x + w.x, v.y + w.y, v.z + w.z⟩ := rfl

theorem sub_def (v w : vec3 K) : v - w = ⟨v.x - w.x, v.y - w.y, v.z - w.z⟩ := rfl

theorem neg_def (v : vec3 K) : -v = ⟨-v.x, -v.y, -v.z⟩ := rfl

theorem scale_def (v : vec3 K) (s : K) : v * s = ⟨v.x * s, v.y * s, v.z * s⟩ := rfl

theorem smul_def (s : K) (v : vec3 K) : s * v = ⟨v.x * s, v.y * s, v.z * s⟩ := rfl

theorem scale_one (v : vec3 K) : v * (1 : K) = v := by
  rw [scale_def]
  simp

theorem length_def (sqrt : K → K) (v : vec3 K) :
    v.length sqrt = sqrt (v.x * v.x + v.y * v.y + v.z * v.z) := rfl

theorem length_eq_sqrt_dot (sqrt : K → K) (v : vec3 K) : v.length sqrt = sqrt (dot v v) := rfl

theorem normalize_def (sqrt : K → K) (v : vec3 K) :
    v.normalize sqrt = ⟨v.x / v.length sqrt, v.y / v.length sqrt, v.z / v.length sqrt⟩ := rfl

theorem dot_self_nonneg (v : vec3 K) : 0 ≤ dot v v := by
  unfold dot
  nlinarith [mul_self_nonneg v.x, mul_self_nonneg v.y, mul_self_nonneg v.z]

/-- Over the reals a vector has length 1 exactly when its squared norm is 1. -/
theorem length_eq_one_iff (v : vec3 ℝ) : v.length Real.sqrt = 1 ↔ dot v v = 1 := by
  rw [length_eq_sqrt_dot, Real.sqrt_eq_one]

/-- Over the reals the length equals `r >= 0` exactly when the squared norm is `r * r`. -/
theorem length_eq_iff (v : vec3 ℝ) (r : ℝ) (hr : 0 ≤ r) :
    v.length Real.sqrt = r ↔ dot v v = r * r := by
  rw [length_eq_sqrt_dot, Real.sqrt_eq_iff_mul_self_eq (dot_self_nonneg v) hr]

theorem length_mul_self (v : vec3 ℝ) : v.length Real.sqrt * v.length Real.sqrt = dot v v := by
  rw [length_eq_sqrt_dot, Real.mul_self_sqrt (dot_self_nonneg v)]

/-- A non-zero real vector is normalised to a vector of squared norm 1. -/
theorem dot_normalize_self (v : vec3 ℝ) (hv : dot v v ≠ 0) :
    dot (v.normalize Real.sqrt) (v.normalize Real.sqrt) = 1 := by
  have hL : v.length Real.sqrt ≠ 0 := by
    intro h0
    apply hv
    rw [← length_mul_self, h0, mul_zero]
  have hLL := length_mul_self v
  rw [normalize_def]
  unfold dot at hLL ⊢
  simp only
  field_simp
  linarith

/-- Over the reals a vector of length 1 is left unchanged by `normalize`. -/
theorem normalize_of_length_one (v : vec3 ℝ) (h : v.length Real.sqrt = 1) :
    v.normalize Real.sqrt = v := by
  rw [normalize_def, h]
  simp

/-- Over the reals `normalize` is idempotent (the zero vector is sent to zero
by the field's `x / 0 = 0`). -/
theorem normalize_normalize (v : vec3 ℝ) :
    (v.normalize Real.sqrt).normalize Real.sqrt = v.normalize Real.sqrt := by
  by_cases hv : dot v v = 0
  · have hL : v.length Real.sqrt = 0 := by
      rw [length_eq_sqrt_dot, hv, Real.sqrt_zero]
    have h0 : v.normalize Real.sqrt = ⟨0, 0, 0⟩ := by
      rw [normalize_def, hL]
      simp
    rw [h0, normalize_def]
    simp
  · exact normalize_of_length_one _ ((length_eq_one_iff _).mpr (dot_normalize_self v hv))

end vec3

/-- Over the reals the constructor of `Ray` keeps a normalised direction as it is. -/
theorem Ray.new_normalized (o d : vec3 ℝ) :
    Ray.new Real.sqrt o (d.normalize Real.sqrt) = ⟨o, d.normalize Real.sqrt⟩ := by
  unfold Ray.new
  rw [vec3.normalize_normalize]

/-! ## Claims on reflectAbout and on the recursion of trace -/

/-- C9: for unit vectors `n` and `v`, `r = reflectAbout(v, n) = 2*dot(n,v)*n - v`
satisfies dot(r, n) = dot(v, n) and |r| = |v|. -/
theorem reflectAbout_preserves (n v : vec3 ℝ) (hn : n.length Real.sqrt = 1)
    (_hv : v.length Real.sqrt = 1) :
    reflectAbout v n = (2 * dot n v) * n - v ∧
    dot (reflectAbout v n) n = dot v n ∧
    (reflectAbout v n).length Real.sqrt = v.length Real.sqrt := by
  have hnn : dot n n = 1 := (vec3.length_eq_one_iff n).mp hn
  have h1 : dot (reflectAbout v n) n = 2 * dot n v * dot n n - dot v n := by
    unfold reflectAbout
    rw [vec3.smul_def, vec3.sub_def]
    unfold dot
    simp only
    ring
  have h2 : dot (reflectAbout v n) (reflectAbout v n) =
      4 * (dot n v) ^ 2 * (dot n n - 1) + dot v v := by
    unfold reflectAbout
    rw [vec3.smul_def, vec3.sub_def]
    unfold dot
    simp only
    ring
  refine ⟨rfl, ?_, ?_⟩
  · rw [h1, hnn]
    unfold dot
    ring
  · rw [vec3.length_eq_sqrt_dot, vec3.length_eq_sqrt_dot, h2, hnn]
    simp

/-- Witness of C9: the axis (0,0,1) and the incoming vector (3/5, 0, 4/5). -/
theorem reflectAbout_preserves_witness :
    dot (reflectAbout (⟨3/5, 0, 4/5⟩ : vec3 ℝ) ⟨0, 0, 1⟩) ⟨0, 0, 1⟩ =
      dot (⟨3/5, 0, 4/5⟩ : vec3 ℝ) ⟨0, 0, 1⟩ ∧
    (reflectAbout (⟨3/5, 0, 4/5⟩ : vec3 ℝ) ⟨0, 0, 1⟩).length Real.sqrt =
      (⟨3/5, 0, 4/5⟩ : vec3 ℝ).length Real.sqrt :=
  (reflectAbout_preserves ⟨0, 0, 1⟩ ⟨3/5, 0, 4/5⟩
    (by rw [vec3.length_eq_one_iff]; unfold dot; norm_num)
    (by rw [vec3.length_eq_one_iff]; unfold dot; norm_num)).2

/-- C3: for depth < 8 and a ray whose nearest hit has distance > 0,
`trace(ray, depth) = localLighting(hit) + kr * trace(reflRay, depth + 1)` with
`kr` the reflective coefficient of the hit material,
`reflDir = normalize(reflectAbout(-ray.dir, hit.normal))` and `reflRay` the ray
from `hit.pos + 0.001 * reflDir` with direction `reflDir`; with `kr = 1` the
colour traced along the reflected ray is added unscaled. -/
theorem trace_hit_recursion (cameraPos : vec3 ℝ) (shapes : List (Shape ℝ))
    (lights : List (Light ℝ)) (ray : Ray ℝ) (depth : Int)
    (hit : Intersection ℝ) (reflDir : vec3 ℝ)
    (hhit : hit = findIntersect ray shapes Intersection.default)
    (hrefl : reflDir = (reflectAbout (-ray.dir) hit.normal).normalize Real.sqrt)
    (hdepth : depth < 8) (hpos : 0 < hit.distance) :
    trace Real.sqrt cameraPos shapes lights ray depth =
        localLighting Real.sqrt hit cameraPos shapes lights +
          (Material.deref hit.material).kr *
            trace Real.sqrt cameraPos shapes lights
              ⟨hit.pos + (0.001 : ℝ) * reflDir, reflDir⟩ (depth + 1) ∧
    ((Material.deref hit.material).kr = 1 →
      trace Real.sqrt cameraPos shapes lights ray depth =
        localLighting Real.sqrt hit cameraPos shapes lights +
          trace Real.sqrt cameraPos shapes lights
            ⟨hit.pos + (0.001 : ℝ) * reflDir, reflDir⟩ (depth + 1)) := by
  have hmain : trace Real.sqrt cameraPos shapes lights ray depth =
      localLighting Real.sqrt hit cameraPos shapes lights +
        trace Real.sqrt cameraPos shapes lights
          ⟨hit.pos + (0.001 : ℝ) * reflDir, reflDir⟩ (depth + 1) *
          (Material.deref hit.material).kr := by
    rw [trace_eq, if_neg (by simp only [MAX_RAY_DEPTH]; omega), ← hhit,
      if_neg (not_lt.mpr hpos.le), ← hrefl]
    have hray : Ray.new Real.sqrt (hit.pos + reflDir * (0.001 : ℝ)) reflDir =
        ⟨hit.pos + (0.001 : ℝ) * reflDir, reflDir⟩ := by
      rw [hrefl, Ray.new_normalized]
      rfl
    rw [hray]
  refine ⟨hmain, fun hkr => ?_⟩
  rw [hmain, hkr, vec3.scale_one]

/-! ## Lemmas on Sphere::intersect -/

/-- The method `Sphere::intersect` is the root selection followed by the
construction of the record. -/
theorem Sphere.intersect_eq (sqrt : K → K) (s : Sphere K) (ray : Ray K) :
    s.intersect sqrt ray =
      match Sphere.rootSelect sqrt (dot ray.dir ray.dir)
          (2 * dot (ray.origin - s.center) ray.dir)
          (dot (ray.origin - s.center) (ray.origin - s.center) - s.radius * s.radius) with
      | none => Intersection.default
      | some distance =>
        ⟨(ray.origin + ray.dir * distance - s.center).normalize sqrt,
          ray.origin + ray.dir * distance, distance, s.material⟩ := by
  unfold Sphere.intersect Sphere.rootSelect
  simp only
  split_ifs <;> rfl

/-- With a negative discriminant no root is selected. -/
theorem Sphere.rootSelect_neg_disc (sqrt : K → K) (a b c : K) (h : b * b - 4 * a * c < 0) :
    Sphere.rootSelect sqrt a b c = none := by
  unfold Sphere.rootSelect
  simp only
  rw [if_pos h]

/-- For a unit direction (`a = 1`) and a non-negative discriminant, the
selection returns the smaller root `(-b - √d)/2` when it is non-negative, else
the larger root `(-b + √d)/2` when that one is non-negative, else nothing. -/
theorem Sphere.rootSelect_unit (b c : ℝ) (h : 0 ≤ b * b - 4 * c) :
    Sphere.rootSelect Real.sqrt 1 b c =
      if (-b + Real.sqrt (b * b - 4 * c)) / 2 < 0 then none
      else some (if (-b - Real.sqrt (b * b - 4 * c)) / 2 < 0
        then (-b + Real.sqrt (b * b - 4 * c)) / 2
        else (-b - Real.sqrt (b * b - 4 * c)) / 2) := by
  have hsq0 : 0 ≤ Real.sqrt (b * b - 4 * c) := Real.sqrt_nonneg _
  have hsq2 : Real.sqrt (b * b - 4 * c) * Real.sqrt (b * b - 4 * c) = b * b - 4 * c :=
    Real.mul_self_sqrt h
  unfold Sphere.rootSelect
  simp only [mul_one, div_one]
  rw [if_neg (not_lt.mpr h)]
  generalize Real.sqrt (b * b - 4 * c) = sq at hsq0 hsq2 ⊢
  have hhalf : (0.5 : ℝ) = 1 / 2 := by norm_num
  rw [hhalf]
  have hvieta : ((-b - sq) / 2) * ((-b + sq) / 2) = c := by nlinarith
  by_cases hb : b < 0
  · rw [if_pos hb]
    have hq : 1 / 2 * (-b - sq) = (-b - sq) / 2 := by ring
    rw [hq]
    by_cases hc : c = 0
    · have hsq : sq = -b := by
        have : (sq - -b) * (sq + -b) = 0 := by nlinarith
        rcases mul_eq_zero.mp this with h1 | h1
        · linarith
        · linarith
      subst hc
      rw [hsq]
      have h1 : (-b - -b) / 2 = 0 := by ring
      have h2 : ¬ ((-b + -b) / 2 < 0) := by
        rw [not_lt]
        linarith
      rw [h1, if_neg h2]
      simp
    · have hq0 : (-b - sq) / 2 ≠ 0 := by
        intro h0
        apply hc
        rw [← hvieta, h0, zero_mul]
      have hr2 : c / ((-b - sq) / 2) = (-b + sq) / 2 := by
        rw [div_eq_iff hq0]
        linarith
      rw [hr2]
      have hle : (-b - sq) / 2 ≤ (-b + sq) / 2 := by linarith
      by_cases ht2 : (-b + sq) / 2 < 0
      · rw [if_pos ⟨lt_of_le_of_lt hle ht2, ht2⟩, if_pos ht2]
      · rw [if_neg (fun hcon => ht2 hcon.2), if_neg ht2, if_neg ht2]
        by_cases ht1 : (-b - sq) / 2 < 0
        · rw [if_pos (Or.inl ht1), if_pos ht1]
        · rw [if_neg ht1, if_neg]
          rintro (h1 | h1)
          · exact ht1 h1
          · exact absurd h1 (not_lt.mpr hle)
  · rw [if_neg hb]
    have hb0 : 0 ≤ b := not_lt.mp hb
    have hq : 1 / 2 * (-b + sq) = (-b + sq) / 2 := by ring
    rw [hq]
    by_cases hc : c = 0
    · have hsq : sq = b := by
        have : (sq - b) * (sq + b) = 0 := by nlinarith
        rcases mul_eq_zero.mp this with h1 | h1
        · linarith
        · linarith
      subst hc
      rw [hsq]
      have h1 : (-b + b) / 2 = 0 := by ring
      rw [h1]
      simp only [lt_self_iff_false, div_zero, and_self, or_self, if_false]
      split_ifs with h3
      · rfl
      · have : b = 0 := by
          have : ¬ ((-b - b) / 2 < 0) := h3
          rw [not_lt] at this
          linarith
        rw [this]
        simp
    · have hq0 : (-b + sq) / 2 ≠ 0 := by
        intro h0
        apply hc
        rw [← hvieta, h0, mul_zero]
      have hr2 : c / ((-b + sq) / 2) = (-b - sq) / 2 := by
        rw [div_eq_iff hq0]
        linarith
      rw [hr2]
      have hle : (-b - sq) / 2 ≤ (-b + sq) / 2 := by linarith
      by_cases ht2 : (-b + sq) / 2 < 0
      · rw [if_pos ⟨ht2, lt_of_le_of_lt hle ht2⟩, if_pos ht2]
      · rw [if_neg (fun hcon => ht2 hcon.1), if_neg ht2]
        by_cases ht1 : (-b - sq) / 2 < 0
        · rw [if_pos ht1, if_pos ht1]
        · rw [if_neg ht1, if_neg ht1]
          split_ifs with h4
          · rfl
          · have : ¬ ((-b - sq) / 2 < (-b + sq) / 2) := fun hlt => h4 (Or.inr hlt)
            rw [not_lt] at this
            congr 1
            linarith

/-- The three outcomes of `Sphere::intersect` for a unit direction over the
reals, in terms of the two roots `(-b ∓ √d)/2` of `t² + b t + c`. -/
theorem Sphere.intersect_unit_cases (s : Sphere ℝ) (ray : Ray ℝ)
    (hdd : dot ray.dir ray.dir = 1) (b c : ℝ)
    (hb : b = 2 * dot (ray.origin - s.center) ray.dir)
    (hc : c = dot (ray.origin - s.center) (ray.origin - s.center) - s.radius * s.radius) :
    (b * b - 4 * c < 0 → s.intersect Real.sqrt ray = Intersection.default) ∧
    (0 ≤ b * b - 4 * c → (-b + Real.sqrt (b * b - 4 * c)) / 2 < 0 →
      s.intersect Real.sqrt ray = Intersection.default) ∧
    (0 ≤ b * b - 4 * c → 0 ≤ (-b + Real.sqrt (b * b - 4 * c)) / 2 →
      (s.intersect Real.sqrt ray).distance =
        if (-b - Real.sqrt (b * b - 4 * c)) / 2 < 0
        then (-b + Real.sqrt (b * b - 4 * c)) / 2
        else (-b - Real.sqrt (b * b - 4 * c)) / 2) := by
  rw [Sphere.intersect_eq, hdd, ← hb, ← hc]
  refine ⟨fun hd => ?_, fun hd ht2 => ?_, fun hd ht2 => ?_⟩
  · rw [Sphere.rootSelect_neg_disc Real.sqrt 1 b c (by linarith)]
  · rw [Sphere.rootSelect_unit b c hd, if_pos ht2]
  · rw [Sphere.rootSelect_unit b c hd, if_neg (not_lt.mpr ht2)]

theorem sqrt_of_mul_self (x y : ℝ) (hy : 0 ≤ y) (h : y * y = x) : Real.sqrt x = y := by
  rw [← h]
  exact Real.sqrt_mul_self hy

theorem sqrt_four : Real.sqrt 4 = 2 := sqrt_of_mul_self 4 2 (by norm_num) (by norm_num)

theorem sqrt_twentyfive : Real.sqrt 25 = 5 := sqrt_of_mul_self 25 5 (by norm_num) (by norm_num)

theorem sqrt_sixtyfour : Real.sqrt 64 = 8 := sqrt_of_mul_self 64 8 (by norm_num) (by norm_num)

theorem sqrt_eightyone : Real.sqrt 81 = 9 := sqrt_of_mul_self 81 9 (by norm_num) (by norm_num)

/-- The primary ray `exRay` hits the unit sphere at distance 2, at (0,0,1). -/
theorem exSphere_intersect_exRay :
    Sphere.intersect Real.sqrt (exSphere : Sphere ℝ) exRay = exHit := by
  unfold Sphere.intersect exSphere exRay exHit
  norm_num [dot, vec3.sub_def, vec3.add_def, vec3.scale_def, vec3.normalize_def,
    vec3.length_def, sqrt_four]

/-- The primary ray `exRay` leaves `exOccluder` behind: no hit. -/
theorem exOccluder_intersect_exRay :
    Sphere.intersect Real.sqrt (exOccluder : Sphere ℝ) exRay = Intersection.default := by
  unfold Sphere.intersect exOccluder exRay
  norm_num [dot, vec3.sub_def, vec3.add_def, vec3.scale_def, vec3.normalize_def,
    vec3.length_def, sqrt_four]

/-- The record `exHit` is what `findIntersect` yields for `exRay` in the scene. -/
theorem findIntersect_exRay :
    findIntersect exRay (exShapes Real.sqrt) Intersection.default = (exHit : Intersection ℝ) := by
  unfold findIntersect exShapes
  simp only [List.foldl, findIntersectStep, Sphere.toShape, exSphere_intersect_exRay,
    exOccluder_intersect_exRay]
  norm_num [exHit, Intersection.default]

/-- The shadow ray from (0,0,1) towards the hidden light hits `exOccluder`
at distance 2.9999. -/
theorem exOccluder_intersect_shadow :
    (Sphere.intersect Real.sqrt (exOccluder : Sphere ℝ)
      (Ray.new Real.sqrt (⟨0, 0, 1⟩ + (⟨0, 0, 1⟩ : vec3 ℝ) * (0.0001 : ℝ)) ⟨0, 0, 1⟩)).distance =
      2.9999 := by
  unfold Sphere.intersect exOccluder Ray.new
  norm_num [dot, vec3.sub_def, vec3.add_def, vec3.scale_def, vec3.normalize_def,
    vec3.length_def, sqrt_four]

/-- Witness of C3: the ray `exRay` in the two-sphere scene, at depth 0. -/
theorem trace_hit_recursion_witness :
    trace Real.sqrt (⟨0, 0, 3⟩ : vec3 ℝ) (exShapes Real.sqrt) [exLightFree] exRay 0 =
      localLighting Real.sqrt exHit ⟨0, 0, 3⟩ (exShapes Real.sqrt) [exLightFree] +
        (Material.deref (exHit : Intersection ℝ).material).kr *
          trace Real.sqrt ⟨0, 0, 3⟩ (exShapes Real.sqrt) [exLightFree]
            ⟨(exHit : Intersection ℝ).pos + (0.001 : ℝ) * (⟨0, 0, 1⟩ : vec3 ℝ), ⟨0, 0, 1⟩⟩
            (0 + 1) :=
  (trace_hit_recursion ⟨0, 0, 3⟩ (exShapes Real.sqrt) [exLightFree] exRay 0 exHit ⟨0, 0, 1⟩
    findIntersect_exRay.symm
    (by
      unfold reflectAbout exRay exHit
      norm_num [dot, vec3.sub_def, vec3.neg_def, vec3.smul_def, vec3.normalize_def,
        vec3.length_def])
    (by norm_num)
    (by unfold exHit; norm_num)).1

/-- Witness of C7: the hit at (0,0,1) with normal (0,0,1) and one light at
(0,0,-4), on the far side of the unit sphere. -/
theorem localLighting_all_backfacing_witness :
    (∀ l ∈ [(⟨⟨1, 1, 1⟩, ⟨0, 0, -4⟩⟩ : Light ℝ)],
      dot (exHit : Intersection ℝ).normal ((l.pos - exHit.pos).normalize Real.sqrt) < 0) ∧
    localLighting Real.sqrt exHit (⟨0, 0, 3⟩ : vec3 ℝ) (exShapes Real.sqrt)
      [⟨⟨1, 1, 1⟩, ⟨0, 0, -4⟩⟩] = ⟨0.1, 0.1, 0.1⟩ := by
  have h : ∀ l ∈ [(⟨⟨1, 1, 1⟩, ⟨0, 0, -4⟩⟩ : Light ℝ)],
      dot (exHit : Intersection ℝ).normal ((l.pos - exHit.pos).normalize Real.sqrt) < 0 := by
    intro l hl
    rw [List.mem_singleton] at hl
    subst hl
    unfold exHit
    norm_num [dot, vec3.sub_def, vec3.normalize_def, vec3.length_def, sqrt_twentyfive]
  exact ⟨h, localLighting_all_backfacing Real.sqrt exHit ⟨0, 0, 3⟩ (exShapes Real.sqrt) _ h⟩

set_option maxHeartbeats 1000000 in
/-- C6 (the code departs from the claim): in the two-sphere scene, at the hit
(0,0,1), the light `exLightFree` is front-facing and its own shadow ray hits no
shape at distance > 0, so alone it contributes (0.8, 0.8, 0.8); listed after
`exLightHidden`, whose shadow ray hits `exOccluder`, it is skipped and the
accumulated colour is (0,0,0); listed before it, it contributes again. -/
theorem localLighting_stale_shadow_record :
    0 ≤ dot (exHit : Intersection ℝ).normal
      (((exLightFree : Light ℝ).pos - exHit.pos).normalize Real.sqrt) ∧
    (findIntersect
      (Ray.new Real.sqrt
        ((exHit : Intersection ℝ).pos +
          ((exLightFree : Light ℝ).pos - exHit.pos).normalize Real.sqrt * (0.0001 : ℝ))
        (((exLightFree : Light ℝ).pos - exHit.pos).normalize Real.sqrt))
      (exShapes Real.sqrt) Intersection.default).distance = -1 ∧
    localLightingAccum Real.sqrt exHit (⟨0, 0, 3⟩ : vec3 ℝ) (exShapes Real.sqrt)
      [exLightFree] = ⟨0.8, 0.8, 0.8⟩ ∧
    localLightingAccum Real.sqrt exHit (⟨0, 0, 3⟩ : vec3 ℝ) (exShapes Real.sqrt)
      [exLightHidden, exLightFree] = ⟨0, 0, 0⟩ ∧
    localLightingAccum Real.sqrt exHit (⟨0, 0, 3⟩ : vec3 ℝ) (exShapes Real.sqrt)
      [exLightFree, exLightHidden] = ⟨0.8, 0.8, 0.8⟩ := by
  refine ⟨?_, ?_, ?_, ?_, ?_⟩
  · unfold exHit exLightFree
    norm_num [dot, vec3.sub_def, vec3.normalize_def, vec3.length_def, sqrt_twentyfive]
  · simp only [List.foldl, exHit, exLightFree, exShapes, findIntersect, findIntersectStep,
      Sphere.toShape, Sphere.intersect, exSphere, exOccluder, Ray.new, Intersection.default,
      exMaterial]
    norm_num [dot, vec3.sub_def, vec3.add_def, vec3.scale_def, vec3.smul_def,
      vec3.normalize_def, vec3.length_def, sqrt_four, sqrt_eightyone, sqrt_twentyfive,
      sqrt_sixtyfour, vec3.zero]
  · unfold localLightingAccum
    simp only [List.foldl, localLightingStep, exHit, exLightFree, exShapes,
      findIntersect, findIntersectStep, Sphere.toShape, Sphere.intersect, exSphere, exOccluder,
      Ray.new, Intersection.default, exMaterial, Material.deref, reflectAbout]
    norm_num [dot, vec3.sub_def, vec3.add_def, vec3.scale_def, vec3.smul_def,
      vec3.normalize_def, vec3.length_def, sqrt_four, sqrt_eightyone, sqrt_twentyfive,
      sqrt_sixtyfour, vec3.zero]
  · unfold localLightingAccum
    simp only [List.foldl, localLightingStep, exHit, exLightHidden, exLightFree, exShapes,
      findIntersect, findIntersectStep, Sphere.toShape, Sphere.intersect, exSphere, exOccluder,
      Ray.new, Intersection.default, exMaterial, Material.deref, reflectAbout]
    norm_num [dot, vec3.sub_def, vec3.add_def, vec3.scale_def, vec3.smul_def,
      vec3.normalize_def, vec3.length_def, sqrt_four, sqrt_eightyone, sqrt_twentyfive,
      sqrt_sixtyfour, vec3.zero]
  · unfold localLightingAccum
    simp only [List.foldl, localLightingStep, exHit, exLightHidden, exLightFree, exShapes,
      findIntersect, findIntersectStep, Sphere.toShape, Sphere.intersect, exSphere, exOccluder,
      Ray.new, Intersection.default, exMaterial, Material.deref, reflectAbout]
    norm_num [dot, vec3.sub_def, vec3.add_def, vec3.scale_def, vec3.smul_def,
      vec3.normalize_def, vec3.length_def, sqrt_four, sqrt_eightyone, sqrt_twentyfive,
      sqrt_sixtyfour, vec3.zero]


/-! ## Further lemmas on vec3 -/

theorem vec3.div_def (v : vec3 K) (s : K) : v / s = ⟨v.x / s, v.y / s, v.z / s⟩ := rfl

theorem vec3.ext_iff3 {α : Type} (v w : vec3 α) : v = w ↔ v.x = w.x ∧ v.y = w.y ∧ v.z = w.z := by
  constructor
  · intro h
    rw [h]
    exact ⟨rfl, rfl, rfl⟩
  · rintro ⟨hx, hy, hz⟩
    cases v
    cases w
    simp only at hx hy hz
    rw [hx, hy, hz]

/-- A vector whose squared norm vanishes is the zero vector. -/
theorem vec3.eq_zero_of_dot_self (v : vec3 K) (h : dot v v = 0) : v = ⟨0, 0, 0⟩ := by
  unfold dot at h
  have hx : v.x = 0 := by
    have : v.x * v.x = 0 := by
      nlinarith [mul_self_nonneg v.x, mul_self_nonneg v.y, mul_self_nonneg v.z]
    exact mul_self_eq_zero.mp this
  have hy : v.y = 0 := by
    have : v.y * v.y = 0 := by
      nlinarith [mul_self_nonneg v.x, mul_self_nonneg v.y, mul_self_nonneg v.z]
    exact mul_self_eq_zero.mp this
  have hz : v.z = 0 := by
    have : v.z * v.z = 0 := by
      nlinarith [mul_self_nonneg v.x, mul_self_nonneg v.y, mul_self_nonneg v.z]
    exact mul_self_eq_zero.mp this
  rw [vec3.ext_iff3]
  exact ⟨hx, hy, hz⟩

/-- Two distinct points have a difference of non-zero squared norm. -/
theorem vec3.dot_sub_self_ne_zero (v w : vec3 K) (h : v ≠ w) : dot (v - w) (v - w) ≠ 0 := by
  intro h0
  have hz := vec3.eq_zero_of_dot_self _ h0
  rw [vec3.sub_def, vec3.ext_iff3] at hz
  simp only at hz
  apply h
  rw [vec3.ext_iff3]
  exact ⟨sub_eq_zero.mp hz.1, sub_eq_zero.mp hz.2.1, sub_eq_zero.mp hz.2.2⟩

theorem vec3.add_scale_zero (v w : vec3 K) : v + w * (0 : K) = v := by
  rw [vec3.scale_def, vec3.add_def]
  simp

/-- C14: normalisation is idempotent over the reals: a vector of length 1 is
left unchanged by `vec3::normalize`, and for a non-zero `v` normalising
`normalize(v)` again yields `normalize(v)`, which has length 1. -/
theorem vec3.normalize_idempotent (v : vec3 ℝ) :
    (v.length Real.sqrt = 1 → v.normalize Real.sqrt = v) ∧
    (v ≠ ⟨0, 0, 0⟩ →
      (v.normalize Real.sqrt).normalize Real.sqrt = v.normalize Real.sqrt ∧
      (v.normalize Real.sqrt).length Real.sqrt = 1) := by
  refine ⟨vec3.normalize_of_length_one v, fun hv => ?_⟩
  have hne : dot v v ≠ 0 := fun h0 => hv (vec3.eq_zero_of_dot_self v h0)
  exact ⟨vec3.normalize_normalize v,
    (vec3.length_eq_one_iff _).mpr (vec3.dot_normalize_self v hne)⟩

/-- Witness of C14: the vector (3,0,4), of length 5, and its normalisation
(3/5, 0, 4/5), of length 1. -/
theorem vec3.normalize_idempotent_witness :
    ((⟨3, 0, 4⟩ : vec3 ℝ).normalize Real.sqrt).normalize Real.sqrt =
      (⟨3, 0, 4⟩ : vec3 ℝ).normalize Real.sqrt ∧
    ((⟨3, 0, 4⟩ : vec3 ℝ).normalize Real.sqrt).length Real.sqrt = 1 ∧
    (⟨3 / 5, 0, 4 / 5⟩ : vec3 ℝ).normalize Real.sqrt = ⟨3 / 5, 0, 4 / 5⟩ :=
  ⟨((vec3.normalize_idempotent ⟨3, 0, 4⟩).2 (by rw [Ne, vec3.ext_iff3]; norm_num)).1,
   ((vec3.normalize_idempotent ⟨3, 0, 4⟩).2 (by rw [Ne, vec3.ext_iff3]; norm_num)).2,
   (vec3.normalize_idempotent ⟨3 / 5, 0, 4 / 5⟩).1
     (by rw [vec3.length_eq_one_iff]; unfold dot; norm_num)⟩

theorem traceShortCircuit_eq (sqrt : K → K) (cameraPos : vec3 K) (shapes : List (Shape K))
    (lights : List (Light K)) (ray : Ray K) (depth : Int) :
    traceShortCircuit sqrt cameraPos shapes lights ray depth =
      if depth ≥ MAX_RAY_DEPTH then vec3.splat 0
      else
        if (findIntersect ray shapes Intersection.default).distance < 0 then vec3.splat 0
        else
          if (Material.deref (findIntersect ray shapes Intersection.default).material).kr = 0
          then localLighting sqrt (findIntersect ray shapes Intersection.default) cameraPos
            shapes lights
          else
            localLighting sqrt (findIntersect ray shapes Intersection.default) cameraPos
                shapes lights +
              traceShortCircuit sqrt cameraPos shapes lights
                  (Ray.new sqrt
                    ((findIntersect ray shapes Intersection.default).pos +
                      (reflectAbout (-ray.dir)
                        (findIntersect ray shapes Intersection.default).normal).normalize sqrt *
                        (0.001 : K))
                    ((reflectAbout (-ray.dir)
                      (findIntersect ray shapes Intersection.default).normal).normalize sqrt))
                  (depth + 1) *
                (Material.deref (findIntersect ray shapes Intersection.default).material).kr := by
  rw [traceShortCircuit]

/-- The two functions agree at every depth whose distance to `MAX_RAY_DEPTH` is
at most `n`. -/
theorem traceShortCircuit_eq_trace_aux (sqrt : K → K) (cameraPos : vec3 K)
    (shapes : List (Shape K)) (lights : List (Light K)) (n : Nat) :
    ∀ (ray : Ray K) (depth : Int), (MAX_RAY_DEPTH - depth).toNat ≤ n →
      traceShortCircuit sqrt cameraPos shapes lights ray depth =
        trace sqrt cameraPos shapes lights ray depth := by
  induction n with
  | zero =>
    intro ray depth hn
    have hd : depth ≥ MAX_RAY_DEPTH := by
      simp only [MAX_RAY_DEPTH] at hn ⊢
      omega
    rw [traceShortCircuit_eq, trace_eq, if_pos hd, if_pos hd]
  | succ n ih =>
    intro ray depth hn
    rw [traceShortCircuit_eq, trace_eq]
    by_cases hd : depth ≥ MAX_RAY_DEPTH
    · rw [if_pos hd, if_pos hd]
    · rw [if_neg hd, if_neg hd]
      by_cases hmiss : (findIntersect ray shapes Intersection.default).distance < 0
      · rw [if_pos hmiss, if_pos hmiss]
      · rw [if_neg hmiss, if_neg hmiss]
        by_cases hkr :
            (Material.deref (findIntersect ray shapes Intersection.default).material).kr = 0
        · rw [if_pos hkr, hkr, vec3.add_scale_zero]
        · rw [if_neg hkr, ih _ (depth + 1) (by simp only [MAX_RAY_DEPTH] at hn hd ⊢; omega)]

/-- C13: short-circuiting on `kr = 0` does not change the output: for every
scene, ray and depth the variant that returns `localLighting(hit)` without
tracing the reflection ray when the hit material has `kr = 0` returns the same
colour as `trace`. -/
theorem traceShortCircuit_eq_trace (sqrt : K → K) (cameraPos : vec3 K)
    (shapes : List (Shape K)) (lights : List (Light K)) (ray : Ray K) (depth : Int) :
    traceShortCircuit sqrt cameraPos shapes lights ray depth =
      trace sqrt cameraPos shapes lights ray depth :=
  traceShortCircuit_eq_trace_aux sqrt cameraPos shapes lights _ ray depth (le_refl _)

/-- With more than `8 - depth` units of fuel the fuelled `trace` returns the
value of `trace`. -/
theorem traceFuel_eq_trace (sqrt : K → K) (cameraPos : vec3 K)
    (shapes : List (Shape K)) (lights : List (Light K)) (fuel : Nat) :
    ∀ (ray : Ray K) (depth : Int), (MAX_RAY_DEPTH - depth).toNat < fuel →
      traceFuel sqrt cameraPos shapes lights fuel ray depth =
        some (trace sqrt cameraPos shapes lights ray depth) := by
  induction fuel with
  | zero =>
    intro ray depth h
    exact absurd h (Nat.not_lt_zero _)
  | succ fuel ih =>
    intro ray depth h
    rw [trace_eq]
    unfold traceFuel
    by_cases hd : depth ≥ MAX_RAY_DEPTH
    · rw [if_pos hd, if_pos hd]
    · rw [if_neg hd, if_neg hd]
      by_cases hmiss : (findIntersect ray shapes Intersection.default).distance < 0
      · simp only []
        rw [if_pos hmiss, if_pos hmiss]
      · simp only []
        rw [if_neg hmiss, if_neg hmiss,
          ih _ (depth + 1) (by simp only [MAX_RAY_DEPTH] at h hd ⊢; omega)]

/-- C15: `trace` terminates for every scene, ray and integer depth: run with
a bound on the nesting of calls, it returns the value of `trace` as soon as
the bound exceeds `8 - depth` (one unit for the call itself and at most
`8 - depth` nested calls); the recursive call is made with `depth + 1` and only
when `depth < 8`, where `8 - depth` strictly decreases; at `depth >= 8` the
call returns black with no nested call. -/
theorem trace_terminates (sqrt : K → K) (cameraPos : vec3 K) (shapes : List (Shape K))
    (lights : List (Light K)) (ray : Ray K) (depth : Int) :
    (∀ fuel : Nat, (8 - depth).toNat < fuel →
      traceFuel sqrt cameraPos shapes lights fuel ray depth =
        some (trace sqrt cameraPos shapes lights ray depth)) ∧
    (depth < 8 → (8 - (depth + 1)).toNat < (8 - depth).toNat) ∧
    (depth ≥ 8 → traceFuel sqrt cameraPos shapes lights 1 ray depth = some ⟨0, 0, 0⟩) := by
  refine ⟨fun fuel h => traceFuel_eq_trace sqrt cameraPos shapes lights fuel ray depth h,
    fun h => by omega, fun h => ?_⟩
  unfold traceFuel
  rw [if_pos (by simpa [MAX_RAY_DEPTH] using h)]
  rfl

/-- Witness of C15: in the two-sphere scene, at depth 0, nine units of fuel
are enough. -/
theorem trace_terminates_witness :
    traceFuel Real.sqrt (⟨0, 0, 3⟩ : vec3 ℝ) (exShapes Real.sqrt) [exLightFree] 9 exRay 0 =
      some (trace Real.sqrt ⟨0, 0, 3⟩ (exShapes Real.sqrt) [exLightFree] exRay 0) :=
  (trace_terminates Real.sqrt ⟨0, 0, 3⟩ (exShapes Real.sqrt) [exLightFree] exRay 0).1 9
    (by decide)


/-! ## The intermediate q of Sphere::intersect -/

/-- On the path where the discriminant is not negative, `Sphere::intersect`
continues from `Sphere.intersectQ`: the candidates are `q / a` and `c / q`. -/
theorem Sphere.intersect_eq_of_q (sqrt : K → K) (s : Sphere K) (ray : Ray K)
    (hd : ¬ (2 * dot (ray.origin - s.center) ray.dir) *
        (2 * dot (ray.origin - s.center) ray.dir) -
      4 * dot ray.dir ray.dir *
        (dot (ray.origin - s.center) (ray.origin - s.center) - s.radius * s.radius) < 0) :
    s.intersect sqrt ray =
      if s.intersectQ sqrt ray / dot ray.dir ray.dir < 0 ∧
          (dot (ray.origin - s.center) (ray.origin - s.center) - s.radius * s.radius) /
            s.intersectQ sqrt ray < 0
      then Intersection.default
      else
        ⟨(ray.origin + ray.dir *
            (if (dot (ray.origin - s.center) (ray.origin - s.center) - s.radius * s.radius) /
                s.intersectQ sqrt ray < 0
              then s.intersectQ sqrt ray / dot ray.dir ray.dir
              else if s.intersectQ sqrt ray / dot ray.dir ray.dir < 0 ∨
                  (dot (ray.origin - s.center) (ray.origin - s.center) -
                    s.radius * s.radius) / s.intersectQ sqrt ray <
                    s.intersectQ sqrt ray / dot ray.dir ray.dir
                then (dot (ray.origin - s.center) (ray.origin - s.center) -
                  s.radius * s.radius) / s.intersectQ sqrt ray
                else s.intersectQ sqrt ray / dot ray.dir ray.dir) - s.center).normalize sqrt,
          ray.origin + ray.dir *
            (if (dot (ray.origin - s.center) (ray.origin - s.center) - s.radius * s.radius) /
                s.intersectQ sqrt ray < 0
              then s.intersectQ sqrt ray / dot ray.dir ray.dir
              else if s.intersectQ sqrt ray / dot ray.dir ray.dir < 0 ∨
                  (dot (ray.origin - s.center) (ray.origin - s.center) -
                    s.radius * s.radius) / s.intersectQ sqrt ray <
                    s.intersectQ sqrt ray / dot ray.dir ray.dir
                then (dot (ray.origin - s.center) (ray.origin - s.center) -
                  s.radius * s.radius) / s.intersectQ sqrt ray
                else s.intersectQ sqrt ray / dot ray.dir ray.dir),
          (if (dot (ray.origin - s.center) (ray.origin - s.center) - s.radius * s.radius) /
                s.intersectQ sqrt ray < 0
              then s.intersectQ sqrt ray / dot ray.dir ray.dir
              else if s.intersectQ sqrt ray / dot ray.dir ray.dir < 0 ∨
                  (dot (ray.origin - s.center) (ray.origin - s.center) -
                    s.radius * s.radius) / s.intersectQ sqrt ray <
                    s.intersectQ sqrt ray / dot ray.dir ray.dir
                then (dot (ray.origin - s.center) (ray.origin - s.center) -
                  s.radius * s.radius) / s.intersectQ sqrt ray
                else s.intersectQ sqrt ray / dot ray.dir ray.dir),
          s.material⟩ := by
  unfold Sphere.intersect Sphere.intersectQ
  simp only
  rw [if_neg hd]

/-- C16 (the code departs from the claim): for the unit sphere at the origin and
the ray from (0,0,5) along (0,0,-1), where b = -10 and the root of the
discriminant is 2, the code computes q = (-b - 2)/2 = 4, not the stable
(-b + 2)/2 = 6, and |q| = 4 is not (|b| + 2)/2 = 6. -/
theorem Sphere.intersectQ_cancels :
    2 * dot ((⟨0, 0, 5⟩ : vec3 ℝ) - ⟨0, 0, 0⟩) ⟨0, 0, -1⟩ = -10 ∧
    Real.sqrt ((-10) * (-10) - 4 * dot (⟨0, 0, -1⟩ : vec3 ℝ) ⟨0, 0, -1⟩ *
      (dot ((⟨0, 0, 5⟩ : vec3 ℝ) - ⟨0, 0, 0⟩) (⟨0, 0, 5⟩ - ⟨0, 0, 0⟩) - 1 * 1)) = 2 ∧
    Sphere.intersectQ Real.sqrt (⟨⟨0, 0, 0⟩, 1, none⟩ : Sphere ℝ)
      ⟨⟨0, 0, 5⟩, ⟨0, 0, -1⟩⟩ = 4 ∧
    Sphere.intersectQ Real.sqrt (⟨⟨0, 0, 0⟩, 1, none⟩ : Sphere ℝ)
      ⟨⟨0, 0, 5⟩, ⟨0, 0, -1⟩⟩ ≠ (-(-10) + 2) / 2 ∧
    |Sphere.intersectQ Real.sqrt (⟨⟨0, 0, 0⟩, 1, none⟩ : Sphere ℝ)
      ⟨⟨0, 0, 5⟩, ⟨0, 0, -1⟩⟩| ≠ (|(-10 : ℝ)| + 2) / 2 := by
  have hq : Sphere.intersectQ Real.sqrt (⟨⟨0, 0, 0⟩, 1, none⟩ : Sphere ℝ)
      ⟨⟨0, 0, 5⟩, ⟨0, 0, -1⟩⟩ = 4 := by
    unfold Sphere.intersectQ
    norm_num [dot, vec3.sub_def, sqrt_four]
  refine ⟨?_, ?_, hq, ?_, ?_⟩
  · norm_num [dot, vec3.sub_def]
  · norm_num [dot, vec3.sub_def, sqrt_four]
  · rw [hq]
    norm_num
  · rw [hq]
    norm_num [abs_of_pos]

/-- The iteration for a light that is neither back-facing nor found shadowed:
the diffuse term and the specular term are added to the colour. -/
theorem localLightingStep_lit (sqrt : K → K) (intersect : Intersection K)
    (camDir : vec3 K) (shapes : List (Shape K)) (st : vec3 K × Intersection K)
    (light : Light K)
    (hfront : ¬ dot intersect.normal ((light.pos - intersect.pos).normalize sqrt) < 0)
    (hfree : ¬ (findIntersect
      (Ray.new sqrt
        (intersect.pos + (light.pos - intersect.pos).normalize sqrt * (0.0001 : K))
        ((light.pos - intersect.pos).normalize sqrt)) shapes st.2).distance > 0) :
    localLightingStep sqrt intersect camDir shapes st light =
      (st.1 +
          (Material.deref intersect.material).color * (Material.deref intersect.material).kd *
            dot ((light.pos - intersect.pos).normalize sqrt) intersect.normal +
          specularTerm light (Material.deref intersect.material) camDir
            ((reflectAbout ((light.pos - intersect.pos).normalize sqrt)
              intersect.normal).normalize sqrt),
        findIntersect
          (Ray.new sqrt
            (intersect.pos + (light.pos - intersect.pos).normalize sqrt * (0.0001 : K))
            ((light.pos - intersect.pos).normalize sqrt)) shapes st.2) := by
  unfold localLightingStep specularTerm
  simp only
  rw [if_neg hfront, if_neg hfree]

theorem specularTerm_components (light : Light K) (material : Material K)
    (camDir reflected : vec3 K) :
    specularTerm light material camDir reflected =
      ⟨light.color.x * material.ks * (dot camDir reflected) ^ 64,
        light.color.y * material.ks * (dot camDir reflected) ^ 64,
        light.color.z * material.ks * (dot camDir reflected) ^ 64⟩ := rfl

/-- The 64th power of the dot product is never negative: 64 is even. -/
theorem pow_sixtyfour_nonneg (x : K) : 0 ≤ x ^ 64 :=
  Even.pow_nonneg (by decide) x

/-- No component of the specular term is negative when the light colour and
`ks` are not. -/
theorem specularTerm_components_nonneg (light : Light K) (material : Material K)
    (camDir reflected : vec3 K) (hx : 0 ≤ light.color.x) (hy : 0 ≤ light.color.y)
    (hz : 0 ≤ light.color.z) (hks : 0 ≤ material.ks) :
    0 ≤ (specularTerm light material camDir reflected).x ∧
    0 ≤ (specularTerm light material camDir reflected).y ∧
    0 ≤ (specularTerm light material camDir reflected).z := by
  rw [specularTerm_components]
  have hp := pow_sixtyfour_nonneg (dot camDir reflected)
  exact ⟨mul_nonneg (mul_nonneg hx hks) hp, mul_nonneg (mul_nonneg hy hks) hp,
    mul_nonneg (mul_nonneg hz hks) hp⟩

/-- C17, as stated, fails: no light of non-negative colour, material with
ks >= 0, view direction and reflected direction with
dot(viewDir, reflected) < 0 give a specular term with a negative component. -/
theorem specularTerm_negative_impossible :
    ¬ ∃ (light : Light ℝ) (material : Material ℝ) (camDir reflected : vec3 ℝ),
      0 ≤ light.color.x ∧ 0 ≤ light.color.y ∧ 0 ≤ light.color.z ∧ 0 ≤ material.ks ∧
      dot camDir reflected < 0 ∧
      ((specularTerm light material camDir reflected).x < 0 ∨
        (specularTerm light material camDir reflected).y < 0 ∨
        (specularTerm light material camDir reflected).z < 0) := by
  rintro ⟨light, material, camDir, reflected, hx, hy, hz, hks, -, hneg⟩
  obtain ⟨h1, h2, h3⟩ :=
    specularTerm_components_nonneg light material camDir reflected hx hy hz hks
  rcases hneg with h | h | h
  · exact absurd h (not_lt.mpr h1)
  · exact absurd h (not_lt.mpr h2)
  · exact absurd h (not_lt.mpr h3)

/-- C17 (amended): the unclamped specular term is never negative: for a light
of non-negative colour and a material with ks >= 0, also when
dot(viewDir, reflected) < 0, the term light.color * ks * dot(viewDir, reflected)^64
equals light.color * ks * |dot(viewDir, reflected)|^64 and each of its
components is >= 0. -/
theorem specularTerm_nonneg (light : Light K) (material : Material K)
    (camDir reflected : vec3 K) (hx : 0 ≤ light.color.x) (hy : 0 ≤ light.color.y)
    (hz : 0 ≤ light.color.z) (hks : 0 ≤ material.ks) :
    specularTerm light material camDir reflected =
      light.color * material.ks * |dot camDir reflected| ^ 64 ∧
    0 ≤ (specularTerm light material camDir reflected).x ∧
    0 ≤ (specularTerm light material camDir reflected).y ∧
    0 ≤ (specularTerm light material camDir reflected).z := by
  refine ⟨?_, specularTerm_components_nonneg light material camDir reflected hx hy hz hks⟩
  unfold specularTerm
  rw [Even.pow_abs (by decide)]

/-- Witness of C17 (amended): a white light, ks = 1 and
dot(viewDir, reflected) = -1 give the specular term (1, 1, 1). -/
theorem specularTerm_nonneg_witness :
    dot (⟨0, 0, -1⟩ : vec3 ℝ) ⟨0, 0, 1⟩ < 0 ∧
    specularTerm (⟨⟨1, 1, 1⟩, ⟨0, 0, 10⟩⟩ : Light ℝ) ⟨⟨1, 1, 1⟩, 1, 1, 0⟩ ⟨0, 0, -1⟩ ⟨0, 0, 1⟩ =
      ⟨1, 1, 1⟩ ∧
    0 ≤ (specularTerm (⟨⟨1, 1, 1⟩, ⟨0, 0, 10⟩⟩ : Light ℝ) ⟨⟨1, 1, 1⟩, 1, 1, 0⟩
      ⟨0, 0, -1⟩ ⟨0, 0, 1⟩).x := by
  have h := specularTerm_nonneg (⟨⟨1, 1, 1⟩, ⟨0, 0, 10⟩⟩ : Light ℝ) ⟨⟨1, 1, 1⟩, 1, 1, 0⟩
    ⟨0, 0, -1⟩ ⟨0, 0, 1⟩ (by norm_num) (by norm_num) (by norm_num) (by norm_num)
  refine ⟨by norm_num [dot], ?_, h.2.1⟩
  rw [h.1]
  norm_num [dot, vec3.scale_def]


/-! ## A ray leaving the surface of a sphere -/

/-- A ray that starts at `p + ε l`, with `p` on the sphere, `ε > 0`, and whose
unit direction `l` does not point into the sphere at `p`, is not hit by
`Sphere::intersect`: both roots are negative. -/
theorem Sphere.intersect_offset_miss (s : Sphere ℝ) (p l : vec3 ℝ) (ε : ℝ) (hε : 0 < ε)
    (hp : dot (p - s.center) (p - s.center) = s.radius * s.radius)
    (hl : dot l l = 1) (hfront : 0 ≤ dot (p - s.center) l) :
    s.intersect Real.sqrt ⟨p + l * ε, l⟩ = Intersection.default := by
  have hb : 2 * (dot (p - s.center) l + ε) = 2 * dot (p + l * ε - s.center) l := by
    rw [vec3.scale_def, vec3.add_def, vec3.sub_def, vec3.sub_def]
    unfold dot at hl ⊢
    simp only
    linear_combination (-2 * ε) * hl
  have hc : 2 * ε * dot (p - s.center) l + ε * ε =
      dot (p + l * ε - s.center) (p + l * ε - s.center) - s.radius * s.radius := by
    rw [← hp, vec3.scale_def, vec3.add_def, vec3.sub_def, vec3.sub_def]
    unfold dot at hl ⊢
    simp only
    linear_combination (-(ε * ε)) * hl
  obtain ⟨-, hcase2, -⟩ := Sphere.intersect_unit_cases s ⟨p + l * ε, l⟩ hl _ _ hb hc
  have hdisc : 2 * (dot (p - s.center) l + ε) * (2 * (dot (p - s.center) l + ε)) -
      4 * (2 * ε * dot (p - s.center) l + ε * ε) =
      (2 * dot (p - s.center) l) * (2 * dot (p - s.center) l) := by ring
  have hsqrt : Real.sqrt (2 * (dot (p - s.center) l + ε) * (2 * (dot (p - s.center) l + ε)) -
      4 * (2 * ε * dot (p - s.center) l + ε * ε)) = 2 * dot (p - s.center) l := by
    rw [hdisc]
    exact Real.sqrt_mul_self (by linarith)
  apply hcase2
  · rw [hdisc]
    exact mul_self_nonneg _
  · rw [hsqrt]
    linarith

/-- In a scene whose only shape is the sphere, such a ray leaves a fresh record
untouched. -/
theorem findIntersect_offset_miss (s : Sphere ℝ) (p l : vec3 ℝ) (ε : ℝ) (hε : 0 < ε)
    (hp : dot (p - s.center) (p - s.center) = s.radius * s.radius)
    (hl : dot l l = 1) (hfront : 0 ≤ dot (p - s.center) l) :
    findIntersect ⟨p + l * ε, l⟩ [s.toShape Real.sqrt] Intersection.default =
      Intersection.default := by
  apply findIntersect_of_no_hit
  intro sh hsh
  rw [List.mem_singleton] at hsh
  rw [hsh]
  show ¬ 0 < (s.intersect Real.sqrt ⟨p + l * ε, l⟩).distance
  rw [Sphere.intersect_offset_miss s p l ε hε hp hl hfront, Intersection.default_distance]
  norm_num

/-- The floor of `localLighting` is a maximum. -/
theorem floor_eq_max (c : K) : (if c > 0.1 then c else 0.1) = max 0.1 c := by
  split_ifs with hc
  · exact (max_eq_right hc.le).symm
  · exact (max_eq_left (not_lt.mp hc)).symm

/-- C12: in a scene whose only shape is one sphere of radius > 0 and whose only
light is front-facing at a hit point on that sphere (outward unit normal, light
not at the hit point), with ks = 0, the shadow ray from pos + 0.0001 * lightDir
does not re-intersect the sphere and `localLighting` returns componentwise
max(0.1, color * kd * dot(lightDir, normal)); with the light directly above the
hit point and kd = 1 this is max(0.1, color). -/
theorem localLighting_single_sphere (s : Sphere ℝ) (hit : Intersection ℝ) (camPos : vec3 ℝ)
    (light : Light ℝ) (lightDir : vec3 ℝ)
    (hr : 0 < s.radius)
    (hon : (hit.pos - s.center).length Real.sqrt = s.radius)
    (hnormal : hit.normal = (hit.pos - s.center) / s.radius)
    (hlight : light.pos ≠ hit.pos)
    (hdir : lightDir = (light.pos - hit.pos).normalize Real.sqrt)
    (hfront : 0 ≤ dot hit.normal lightDir)
    (hks : (Material.deref hit.material).ks = 0) :
    (findIntersect (Ray.new Real.sqrt (hit.pos + lightDir * (0.0001 : ℝ)) lightDir)
      [s.toShape Real.sqrt] Intersection.default).distance = -1 ∧
    localLighting Real.sqrt hit camPos [s.toShape Real.sqrt] [light] =
      ⟨max 0.1 ((Material.deref hit.material).color.x * (Material.deref hit.material).kd *
          dot lightDir hit.normal),
        max 0.1 ((Material.deref hit.material).color.y * (Material.deref hit.material).kd *
          dot lightDir hit.normal),
        max 0.1 ((Material.deref hit.material).color.z * (Material.deref hit.material).kd *
          dot lightDir hit.normal)⟩ ∧
    (lightDir = hit.normal → (Material.deref hit.material).kd = 1 →
      localLighting Real.sqrt hit camPos [s.toShape Real.sqrt] [light] =
        ⟨max 0.1 (Material.deref hit.material).color.x,
          max 0.1 (Material.deref hit.material).color.y,
          max 0.1 (Material.deref hit.material).color.z⟩) := by
  have hl1 : dot lightDir lightDir = 1 := by
    rw [hdir]
    exact vec3.dot_normalize_self _ (vec3.dot_sub_self_ne_zero _ _ hlight)
  have hpp : dot (hit.pos - s.center) (hit.pos - s.center) = s.radius * s.radius :=
    (vec3.length_eq_iff _ _ hr.le).mp hon
  have hfr : 0 ≤ dot (hit.pos - s.center) lightDir := by
    have h1 : dot (hit.pos - s.center) lightDir = s.radius * dot hit.normal lightDir := by
      rw [hnormal, vec3.div_def]
      unfold dot
      simp only
      field_simp
    rw [h1]
    exact mul_nonneg hr.le hfront
  have hray : Ray.new Real.sqrt (hit.pos + lightDir * (0.0001 : ℝ)) lightDir =
      ⟨hit.pos + lightDir * (0.0001 : ℝ), lightDir⟩ := by
    rw [hdir, Ray.new_normalized]
  have hfind : findIntersect (Ray.new Real.sqrt (hit.pos + lightDir * (0.0001 : ℝ)) lightDir)
      [s.toShape Real.sqrt] Intersection.default = Intersection.default := by
    rw [hray]
    exact findIntersect_offset_miss s hit.pos lightDir 0.0001 (by norm_num) hpp hl1 hfr
  have hacc : localLightingAccum Real.sqrt hit camPos [s.toShape Real.sqrt] [light] =
      ⟨(Material.deref hit.material).color.x * (Material.deref hit.material).kd *
          dot lightDir hit.normal,
        (Material.deref hit.material).color.y * (Material.deref hit.material).kd *
          dot lightDir hit.normal,
        (Material.deref hit.material).color.z * (Material.deref hit.material).kd *
          dot lightDir hit.normal⟩ := by
    unfold localLightingAccum
    simp only [List.foldl]
    rw [localLightingStep_lit, ← hdir]
    · simp only [specularTerm_components, hks, vec3.add_def, vec3.scale_def, vec3.zero]
      simp
    · rw [← hdir]
      exact not_lt.mpr hfront
    · rw [← hdir]
      simp only
      rw [hfind, Intersection.default_distance]
      norm_num
  have hres : localLighting Real.sqrt hit camPos [s.toShape Real.sqrt] [light] =
      ⟨max 0.1 ((Material.deref hit.material).color.x * (Material.deref hit.material).kd *
          dot lightDir hit.normal),
        max 0.1 ((Material.deref hit.material).color.y * (Material.deref hit.material).kd *
          dot lightDir hit.normal),
        max 0.1 ((Material.deref hit.material).color.z * (Material.deref hit.material).kd *
          dot lightDir hit.normal)⟩ := by
    unfold localLighting
    simp only [hacc, floor_eq_max]
  refine ⟨by rw [hfind]; rfl, hres, fun habove hkd => ?_⟩
  rw [hres, hkd, ← habove, hl1]
  simp

/-- Witness of C12: the unit sphere alone, the hit at (0,0,1) and the light at
(0,0,10), directly above it; the result is (1, 1, 1). -/
theorem localLighting_single_sphere_witness :
    localLighting Real.sqrt (exHit : Intersection ℝ) ⟨0, 0, 3⟩
      [(exSphere : Sphere ℝ).toShape Real.sqrt] [exLightHidden] = ⟨1, 1, 1⟩ := by
  have h := localLighting_single_sphere (exSphere : Sphere ℝ) exHit ⟨0, 0, 3⟩ exLightHidden
    ⟨0, 0, 1⟩
    (by unfold exSphere; norm_num)
    (by
      rw [vec3.length_eq_iff _ _ (by unfold exSphere; norm_num)]
      norm_num [exHit, exSphere, vec3.sub_def, dot])
    (by norm_num [exHit, exSphere, vec3.sub_def, vec3.div_def])
    (by rw [Ne, vec3.ext_iff3]; norm_num [exLightHidden, exHit])
    (by
      norm_num [exLightHidden, exHit, vec3.sub_def, vec3.normalize_def, vec3.length_def,
        sqrt_eightyone])
    (by norm_num [exHit, dot])
    (by simp [exHit, exMaterial, Material.deref])
  rw [h.2.2 (by simp [exHit]) (by simp [exHit, exMaterial, Material.deref])]
  norm_num [exHit, exMaterial, Material.deref]


/-! ## The reflection ray of a single sphere -/

end RayTracer
